import Mathlib

/-!
Shallow embedding of `deepchem/utils/dft_utils/grid/lebedev_grid.py`.

The module builds 3-D quadrature grids from a radial grid and precomputed
Lebedev angular tables:

* `LebedevLoader.load` reads an angular table for a precision from storage,
  converts its first two columns from degrees to radians, and memoizes the
  result in a process-wide cache.
* `LebedevGrid.__init__` combines one radial grid with one angular table into
  Cartesian points and integration weights via an outer product (radius-major
  flattening, mirroring the torch broadcast followed by a row-major `view`).
* `TruncatedLebedevGrid.__init__` concatenates several such grids.

Scalars are modelled by `ℚ` (exact arithmetic in place of floating point);
the trigonometric primitives `torch.sin` / `torch.cos` and the constant
`np.pi / 180` belong to the numeric substrate, so they are passed in as an
abstract `NumPrims` record.  Storage is a partial map from precision to the
raw (degree-valued) table rows; the loader cache is a partial map from
precision to converted tables, threaded explicitly.  Python `assert` /
`KeyError` failures are modelled with the error kinds named by the design
document: `InvalidArgument`, `ResourceNotFound`, `UnknownMethod`.
-/

/-- One row of a Lebedev data set: `(phi, theta, weight)` — the first two
columns of `lebedev_%03d.txt` and the quadrature weight. -/
def Row : Type := ℚ × ℚ × ℚ

/-- Numeric primitives of the tensor substrate: `torch.sin`, `torch.cos`,
and the degree-to-radian factor `np.pi / 180` used by the loader. -/
structure NumPrims where
  sin : ℚ → ℚ
  cos : ℚ → ℚ
  degToRad : ℚ

/-- Persistent storage of angular-table resources: maps a precision to the
raw rows of `lebedev_%03d.txt` (angles still in degrees), or `none` when the
file does not exist. -/
def Storage : Type := Nat → Option (List Row)

/-- The process-wide loader cache `LebedevLoader.caches`: precision to the
converted (radian-valued) table. -/
def Cache : Type := Nat → Option (List Row)

/-- Errors of the module, per the design document's taxonomy: failed
`assert`s surface as `invalidArgument`, a missing `lebedev_%03d.txt` as
`resourceNotFound` (carrying the precision), and the `KeyError` of
`getparamnames` as `unknownMethod` (carrying the method name). -/
inductive GridError where
  | invalidArgument : GridError
  | resourceNotFound : Nat → GridError
  | unknownMethod : String → GridError
deriving DecidableEq

/-- `lebedev_dsets[:, :2] *= (np.pi / 180)`: scale the two angle columns of
one row by the degree-to-radian factor, keep the weight. -/
def convertRow (P : NumPrims) (row : Row) : Row :=
  (row.1 * P.degToRad, row.2.1 * P.degToRad, row.2.2)

/-- Result of one `LebedevLoader.load` call: the returned table (or error),
the cache afterwards, and how many storage reads (`np.loadtxt`) happened. -/
structure LoadResult where
  result : Except GridError (List Row)
  cache : Cache
  reads : Nat

/-- `LebedevLoader.load(prec)`: on a cache miss, check that the resource
exists (else the `assert` fires, before anything is stored), read it,
convert the angle columns to radians, store the table in the cache, and
return it; on a hit, return the cached table with no storage access. -/
def LebedevLoader.load (P : NumPrims) (s : Storage) (c : Cache) (prec : Nat) : LoadResult :=
  match c prec with
  | some tbl => ⟨.ok tbl, c, 0⟩
  | none =>
    match s prec with
    | none => ⟨.error (.resourceNotFound prec), c, 0⟩
    | some raw =>
      let tbl := raw.map (convertRow P)
      ⟨.ok tbl, fun q => if q = prec then some tbl else c q, 1⟩

/-- The radial grid consumed by `LebedevGrid.__init__`: its radii
(`get_rgrid`), per-radius differential volumes (`get_dvolume`), and the
`coord_type` / `dtype` / `device` properties. -/
structure RadialGrid where
  rgrid : List ℚ
  dvol : List ℚ
  coord_type : String
  dtype : String
  device : String

/-- The state a constructed `LebedevGrid` owns: `_dtype`, `_device`,
`_xyz` (Cartesian points) and `_dvolume` (integration weights). -/
structure LebedevGrid where
  dtype : String
  device : String
  xyz : List (ℚ × ℚ × ℚ)
  dvolume : List ℚ

/-- `LebedevGrid.get_rgrid`: the Cartesian points `_xyz`. -/
def LebedevGrid.get_rgrid (G : LebedevGrid) : List (ℚ × ℚ × ℚ) := G.xyz

/-- `LebedevGrid.get_dvolume`: the integration weights `_dvolume`. -/
def LebedevGrid.get_dvolume (G : LebedevGrid) : List ℚ := G.dvolume

/-- `LebedevGrid.coord_type`: constantly `"cart"` (also inherited unchanged
by `TruncatedLebedevGrid`). -/
def LebedevGrid.coord_type (_ : LebedevGrid) : String := "cart"

/-- The tensor computation of `LebedevGrid.__init__` lines 104–116 once the
table is loaded: `rsintheta = r * sin(theta)`, `x = rsintheta * cos(phi)`,
`y = rsintheta * sin(phi)`, `z = r * cos(theta)` broadcast over
`(nr, nphitheta)` and flattened row-major (radius-major), and
`_dvolume = (dvol_rad * wphitheta).view(-1)` with the same flattening. -/
def mkGridFromTable (P : NumPrims) (g : RadialGrid) (tbl : List Row) : LebedevGrid :=
  { dtype := g.dtype
    device := g.device
    xyz := g.rgrid.flatMap fun r => tbl.map fun row =>
      (r * P.sin row.2.1 * P.cos row.1, r * P.sin row.2.1 * P.sin row.1, r * P.cos row.2.1)
    dvolume := g.dvol.flatMap fun dv => tbl.map fun row => dv * row.2.2 }

/-- `LebedevGrid.__init__(radgrid, prec)`: assert the precision is odd and
in `[3, 131]`, load the angular table through the cache, assert
`radgrid.coord_type == "radial"`, then build the outer-product grid.  The
cache after the construction is threaded out alongside the grid. -/
def mkLebedevGrid (P : NumPrims) (s : Storage) (c : Cache) (g : RadialGrid) (prec : Nat) :
    Except GridError (LebedevGrid × Cache) :=
  if prec % 2 = 1 ∧ 3 ≤ prec ∧ prec ≤ 131 then
    match (LebedevLoader.load P s c prec).result with
    | .error e => .error e
    | .ok tbl =>
      if g.coord_type = "radial" then
        .ok (mkGridFromTable P g tbl, (LebedevLoader.load P s c prec).cache)
      else .error .invalidArgument
  else .error .invalidArgument

/-- `LebedevGrid.getparamnames(methodname, prefix)`: string dispatch to the
backing field identifier, `KeyError` otherwise. -/
def LebedevGrid.getparamnames (methodname : String) (pfx : String) :
    Except GridError (List String) :=
  if methodname = "get_rgrid" then .ok [pfx ++ "_xyz"]
  else if methodname = "get_dvolume" then .ok [pfx ++ "_dvolume"]
  else .error (.unknownMethod methodname)

/-- The list comprehension of `TruncatedLebedevGrid.__init__`:
`[LebedevGrid(radgrid, prec) for (radgrid, prec) in zip(radgrids, precs)]`,
threading the loader cache left to right; the first failing construction
aborts the whole comprehension. -/
def buildList (P : NumPrims) (s : Storage) (c : Cache) :
    List (RadialGrid × Nat) → Except GridError (List LebedevGrid × Cache)
  | [] => .ok ([], c)
  | gp :: rest =>
    match mkLebedevGrid P s c gp.1 gp.2 with
    | .error e => .error e
    | .ok (G, c₁) =>
      match buildList P s c₁ rest with
      | .error e => .error e
      | .ok (Gs, c₂) => .ok (G :: Gs, c₂)

/-- `TruncatedLebedevGrid.__init__(radgrids, precs)`: assert equal lengths
and non-emptiness, build one `LebedevGrid` per pair, take `dtype`/`device`
from the first, and concatenate all point and weight sequences in list
order (`torch.cat` along dim 0). -/
def mkTruncatedLebedevGrid (P : NumPrims) (s : Storage) (c : Cache)
    (radgrids : List RadialGrid) (precs : List Nat) :
    Except GridError (LebedevGrid × Cache) :=
  if radgrids.length = precs.length then
    if 0 < precs.length then
      match buildList P s c (radgrids.zip precs) with
      | .error e => .error e
      | .ok (Gs, c₁) =>
        match Gs with
        | [] => .error .invalidArgument
        | G₀ :: _ =>
          .ok ({ dtype := G₀.dtype
                 device := G₀.device
                 xyz := (Gs.map LebedevGrid.xyz).flatten
                 dvolume := (Gs.map LebedevGrid.dvolume).flatten }, c₁)
    else .error .invalidArgument
  else .error .invalidArgument

/-- The constituent grids of a composite, each built from the same starting
cache: the value `(mkLebedevGrid ...).map Prod.fst` for every pair, with
the first error propagated. -/
def standaloneGrids (P : NumPrims) (s : Storage) (c : Cache) :
    List (RadialGrid × Nat) → Except GridError (List LebedevGrid)
  | [] => .ok []
  | gp :: rest =>
    match (mkLebedevGrid P s c gp.1 gp.2).map Prod.fst with
    | .error e => .error e
    | .ok G =>
      match standaloneGrids P s c rest with
      | .error e => .error e
      | .ok Gs => .ok (G :: Gs)

/-! ### Concrete fixtures used by witnesses and counterexamples -/

/-- Concrete numeric primitives for witnesses: identity "trig" functions
and a unit conversion factor (the structural claims hold for any choice). -/
def Pid : NumPrims := ⟨fun x => x, fun x => x, 1⟩

/-- A two-row angular table: rows `(phi, theta, weight)`. -/
def tblW : List Row := [((1 : ℚ), 2, 3), ((4 : ℚ), 5, 6)]

/-- A two-radius radial grid with parallel differential volumes. -/
def gW : RadialGrid := ⟨[(10 : ℚ), 20], [(7 : ℚ), 8], "radial", "float64", "cpu"⟩

/-- A radial grid whose `coord_type` is not `"radial"`. -/
def gCart : RadialGrid := ⟨[(10 : ℚ)], [(7 : ℚ)], "cart", "float64", "cpu"⟩

/-- A cache holding `tblW` at precision 3 only. -/
def cacheW : Cache := fun q => if q = 3 then some tblW else none

/-- Storage holding one raw (degree-valued) two-row resource at precision 5. -/
def storW : Storage := fun q => if q = 5 then some [((30 : ℚ), 60, 2), ((90 : ℚ), 45, 4)] else none

/-- An angular table with 6 directions (precision 3 has 6 points). -/
def tbl6 : List Row := List.replicate 6 ((1 : ℚ), 1, 1)

/-- An angular table with 14 directions (precision 5 has 14 points). -/
def tbl14 : List Row := List.replicate 14 ((1 : ℚ), 1, 1)

/-- A cache holding the 6-direction table at precision 3 and the
14-direction table at precision 5. -/
def cache5 : Cache := fun q => if q = 3 then some tbl6 else if q = 5 then some tbl14 else none

/-- A 100-radius radial grid. -/
def rad100 : RadialGrid :=
  ⟨List.replicate 100 (1 : ℚ), List.replicate 100 (1 : ℚ), "radial", "float64", "cpu"⟩

/-! ### Helper lemmas on radius-major flattening -/

/-- Flattening a map-over-`tbl` per element of `l` has length
`l.length * tbl-block size` when every block has the same length. -/
theorem flatMap_length_const {α β : Type} (l : List α) (f : α → List β) (n : Nat)
    (hn : ∀ a, (f a).length = n) : (l.flatMap f).length = l.length * n := by
  induction l with
  | nil => simp
  | cons a t ih =>
    simp only [List.flatMap_cons, List.length_append, ih, List.length_cons, hn]
    ring

/-- Radius-major indexing: entry `i * n + j` of the flattened outer product
is entry `j` of block `i`. -/
theorem flatMap_getElem_const {α β : Type} (l : List α) (f : α → List β) (n : Nat)
    (hn : ∀ a, (f a).length = n) (i j : Nat) (hi : i < l.length) (hj : j < n) :
    (l.flatMap f)[i * n + j]? = (f (l.get ⟨i, hi⟩))[j]? := by
  induction l generalizing i with
  | nil => simp at hi
  | cons a t ih =>
    cases i with
    | zero =>
      have hjlt : j < (f a).length := by rw [hn]; exact hj
      simpa using (@List.getElem?_append_left _ (f a) (t.flatMap f) j hjlt)
    | succ i =>
      have hilt : i < t.length := Nat.lt_of_succ_lt_succ hi
      have harith : (i + 1) * n + j = (f a).length + (i * n + j) := by
        rw [hn]; ring
      rw [List.flatMap_cons, harith,
        List.getElem?_append_right (Nat.le_add_right _ _)]
      simpa using ih i hilt


/-! ### Loader claims -/

/-- C7: when the angular-table resource for a precision does not exist in
storage (and, as in any real execution, no entry for it was ever cached),
`LebedevLoader.load` fails with `ResourceNotFound` carrying that precision,
performs no storage read, and leaves the cache exactly unchanged. -/
theorem C7_load_missing_resource (P : NumPrims) (s : Storage) (c : Cache) (prec : Nat)
    (hc : c prec = none) (hs : s prec = none) :
    LebedevLoader.load P s c prec = ⟨.error (.resourceNotFound prec), c, 0⟩ := by
  unfold LebedevLoader.load
  rw [hc, hs]

/-- C7 witness: precision 7 has no resource in `storW` and no entry in
`cacheW`, and loading it fails with `ResourceNotFound 7`, cache untouched. -/
theorem C7_load_missing_resource_witness :
    cacheW 7 = none ∧ storW 7 = none ∧
      LebedevLoader.load Pid storW cacheW 7 = ⟨.error (.resourceNotFound 7), cacheW, 0⟩ :=
  ⟨rfl, rfl, C7_load_missing_resource Pid storW cacheW 7 rfl rfl⟩

/-- C8: for a precision with a backing resource, two consecutive `load`
calls return the same table value, the first call reads storage at most
once, and the second call is a pure cache hit: zero reads and no cache
change. -/
theorem C8_load_idempotent (P : NumPrims) (s : Storage) (c : Cache) (prec : Nat)
    (raw : List Row) (hs : s prec = some raw) :
    ∃ tbl, (LebedevLoader.load P s c prec).result = .ok tbl ∧
      (LebedevLoader.load P s (LebedevLoader.load P s c prec).cache prec).result = .ok tbl ∧
      (LebedevLoader.load P s (LebedevLoader.load P s c prec).cache prec).reads = 0 ∧
      (LebedevLoader.load P s (LebedevLoader.load P s c prec).cache prec).cache =
        (LebedevLoader.load P s c prec).cache ∧
      (LebedevLoader.load P s c prec).reads ≤ 1 := by
  unfold LebedevLoader.load
  cases hc : c prec with
  | some tbl => exact ⟨tbl, by simp [hc]⟩
  | none =>
    refine ⟨raw.map (convertRow P), ?_⟩
    simp [hc, hs]

/-- C8 witness: precision 5 is backed by `storW`; loading twice from the
empty-at-5 cache `cacheW` returns the same converted table, with the second
call served from the cache. -/
theorem C8_load_idempotent_witness :
    storW 5 = some [((30 : ℚ), 60, 2), ((90 : ℚ), 45, 4)] ∧
      ∃ tbl, (LebedevLoader.load Pid storW cacheW 5).result = .ok tbl ∧
        (LebedevLoader.load Pid storW (LebedevLoader.load Pid storW cacheW 5).cache 5).result =
          .ok tbl ∧
        (LebedevLoader.load Pid storW (LebedevLoader.load Pid storW cacheW 5).cache 5).reads = 0 ∧
        (LebedevLoader.load Pid storW (LebedevLoader.load Pid storW cacheW 5).cache 5).cache =
          (LebedevLoader.load Pid storW cacheW 5).cache ∧
        (LebedevLoader.load Pid storW cacheW 5).reads ≤ 1 :=
  ⟨rfl, C8_load_idempotent Pid storW cacheW 5 [((30 : ℚ), 60, 2), ((90 : ℚ), 45, 4)] rfl⟩

/-! ### Parameter-name reflection -/

/-- C9: for every prefix, `getparamnames` returns exactly the identifier of
the internal points array (`_xyz`) for the points accessor `get_rgrid`,
exactly the identifier of the internal weights array (`_dvolume`) for the
weights accessor `get_dvolume`, and fails with `UnknownMethod` on every
other method name. -/
theorem C9_getparamnames (pfx : String) :
    LebedevGrid.getparamnames "get_rgrid" pfx = .ok [pfx ++ "_xyz"] ∧
    LebedevGrid.getparamnames "get_dvolume" pfx = .ok [pfx ++ "_dvolume"] ∧
    ∀ m : String, m ≠ "get_rgrid" → m ≠ "get_dvolume" →
      LebedevGrid.getparamnames m pfx = .error (.unknownMethod m) := by
  refine ⟨rfl, rfl, fun m h₁ h₂ => ?_⟩
  unfold LebedevGrid.getparamnames
  rw [if_neg h₁, if_neg h₂]

/-- C9 witness: concrete prefix `"obj."` and concrete unsupported method
name `"get_weights"`. -/
theorem C9_getparamnames_witness :
    LebedevGrid.getparamnames "get_rgrid" "obj." = .ok ["obj." ++ "_xyz"] ∧
    LebedevGrid.getparamnames "get_dvolume" "obj." = .ok ["obj." ++ "_dvolume"] ∧
    LebedevGrid.getparamnames "get_weights" "obj." = .error (.unknownMethod "get_weights") :=
  ⟨(C9_getparamnames "obj.").1, (C9_getparamnames "obj.").2.1,
    (C9_getparamnames "obj.").2.2 "get_weights" (by decide) (by decide)⟩


/-! ### Single-grid construction claims -/

/-- Inversion of a successful `LebedevGrid` construction: the precision and
coordinate-type asserts passed, the table came from the loader, and the
grid is the outer-product grid of that table. -/
theorem mkLebedevGrid_ok_elim (P : NumPrims) (s : Storage) (c : Cache) (g : RadialGrid)
    (prec : Nat) (G : LebedevGrid) (c₁ : Cache)
    (hok : mkLebedevGrid P s c g prec = .ok (G, c₁)) :
    ∃ tbl, (LebedevLoader.load P s c prec).result = .ok tbl ∧
      G = mkGridFromTable P g tbl ∧ c₁ = (LebedevLoader.load P s c prec).cache ∧
      (prec % 2 = 1 ∧ 3 ≤ prec ∧ prec ≤ 131) ∧ g.coord_type = "radial" := by
  unfold mkLebedevGrid at hok
  split at hok
  case isTrue hprec =>
    split at hok
    next e heq => simp at hok
    next tbl heq =>
      split at hok
      next hcoord =>
        simp only [Except.ok.injEq, Prod.mk.injEq] at hok
        exact ⟨tbl, heq, hok.1.symm, hok.2.symm, hprec, hcoord⟩
      next _ => simp at hok
  case isFalse _ => simp at hok

/-- C1: the points sequence of a constructed grid is radius-major: for all
valid radius index `i` and angular index `j`, the point at flat index
`i * nphitheta + j` is
`(r·sin θ·cos φ, r·sin θ·sin φ, r·cos θ)` for radius `r = rgrid[i]` and
direction `(φ, θ) = (tbl[j].phi, tbl[j].theta)`. -/
theorem C1_points_radius_major (P : NumPrims) (s : Storage) (c : Cache) (g : RadialGrid)
    (prec : Nat) (tbl : List Row) (G : LebedevGrid) (c₁ : Cache)
    (htbl : (LebedevLoader.load P s c prec).result = .ok tbl)
    (hok : mkLebedevGrid P s c g prec = .ok (G, c₁))
    (i j : Nat) (hi : i < g.rgrid.length) (hj : j < tbl.length) :
    (LebedevGrid.get_rgrid G)[i * tbl.length + j]? =
      some (g.rgrid.get ⟨i, hi⟩ * P.sin (tbl.get ⟨j, hj⟩).2.1 * P.cos (tbl.get ⟨j, hj⟩).1,
        g.rgrid.get ⟨i, hi⟩ * P.sin (tbl.get ⟨j, hj⟩).2.1 * P.sin (tbl.get ⟨j, hj⟩).1,
        g.rgrid.get ⟨i, hi⟩ * P.cos (tbl.get ⟨j, hj⟩).2.1) := by
  obtain ⟨tbl₁, htbl₁, hG, -, -, -⟩ := mkLebedevGrid_ok_elim P s c g prec G c₁ hok
  rw [htbl] at htbl₁
  injection htbl₁ with h
  subst h
  subst hG
  show ((g.rgrid.flatMap fun r => tbl.map fun row =>
    (r * P.sin row.2.1 * P.cos row.1, r * P.sin row.2.1 * P.sin row.1,
      r * P.cos row.2.1)))[i * tbl.length + j]? = _
  rw [flatMap_getElem_const g.rgrid _ tbl.length (fun a => by simp) i j hi hj]
  simp [List.getElem?_map, List.getElem?_eq_getElem hj, List.get_eq_getElem]

/-- C2: the weights sequence is parallel to the points sequence with the
same radius-major ordering: the weight at flat index `i * nphitheta + j` is
`dvol_radial[i] * weight_angular[j]`. -/
theorem C2_weights_radius_major (P : NumPrims) (s : Storage) (c : Cache) (g : RadialGrid)
    (prec : Nat) (tbl : List Row) (G : LebedevGrid) (c₁ : Cache)
    (htbl : (LebedevLoader.load P s c prec).result = .ok tbl)
    (hok : mkLebedevGrid P s c g prec = .ok (G, c₁))
    (i j : Nat) (hi : i < g.dvol.length) (hj : j < tbl.length) :
    (LebedevGrid.get_dvolume G)[i * tbl.length + j]? =
      some (g.dvol.get ⟨i, hi⟩ * (tbl.get ⟨j, hj⟩).2.2) := by
  obtain ⟨tbl₁, htbl₁, hG, -, -, -⟩ := mkLebedevGrid_ok_elim P s c g prec G c₁ hok
  rw [htbl] at htbl₁
  injection htbl₁ with h
  subst h
  subst hG
  show ((g.dvol.flatMap fun dv => tbl.map fun row => dv * row.2.2))[i * tbl.length + j]? = _
  rw [flatMap_getElem_const g.dvol _ tbl.length (fun a => by simp) i j hi hj]
  simp [List.getElem?_map, List.getElem?_eq_getElem hj, List.get_eq_getElem]

/-- C3: for a radial grid with `nr` radii (and `nr` parallel differential
volumes) and a table with `nphitheta` directions, `get_rgrid()` has exactly
`nr * nphitheta` rows (each a Cartesian triple) and `get_dvolume()` has the
same length `nr * nphitheta`. -/
theorem C3_grid_lengths (P : NumPrims) (s : Storage) (c : Cache) (g : RadialGrid)
    (prec : Nat) (tbl : List Row) (G : LebedevGrid) (c₁ : Cache)
    (htbl : (LebedevLoader.load P s c prec).result = .ok tbl)
    (hok : mkLebedevGrid P s c g prec = .ok (G, c₁))
    (hpar : g.dvol.length = g.rgrid.length) :
    (LebedevGrid.get_rgrid G).length = g.rgrid.length * tbl.length ∧
    (LebedevGrid.get_dvolume G).length = g.rgrid.length * tbl.length := by
  obtain ⟨tbl₁, htbl₁, hG, -, -, -⟩ := mkLebedevGrid_ok_elim P s c g prec G c₁ hok
  rw [htbl] at htbl₁
  injection htbl₁ with h
  subst h
  subst hG
  constructor
  · exact flatMap_length_const g.rgrid _ tbl.length (fun a => by simp)
  · rw [show (LebedevGrid.get_dvolume (mkGridFromTable P g tbl)).length =
      (g.dvol.flatMap fun dv => tbl.map fun row => dv * row.2.2).length from rfl,
      flatMap_length_const g.dvol _ tbl.length (fun a => by simp), hpar]


/-- C1 witness: building from the two-radius grid `gW` and two-row table
`tblW` (cached at precision 3), the point at flat index `1 * 2 + 1` is the
outer-product point of radius 20 and direction `(φ, θ) = (4, 5)` under the
identity trig primitives. -/
theorem C1_points_radius_major_witness :
    ∃ G c₁, mkLebedevGrid Pid storW cacheW gW 3 = .ok (G, c₁) ∧
      (LebedevGrid.get_rgrid G)[1 * tblW.length + 1]? = some (400, 400, 100) := by
  refine ⟨_, _, rfl, ?_⟩
  have h := C1_points_radius_major Pid storW cacheW gW 3 tblW _ _ rfl rfl 1 1
    (by decide) (by decide)
  norm_num [gW, tblW, Pid] at h
  simpa [tblW] using h

/-- C2 witness: in the same construction, the weight at flat index
`1 * 2 + 1` is `dvol[1] * weight[1] = 8 * 6 = 48`. -/
theorem C2_weights_radius_major_witness :
    ∃ G c₁, mkLebedevGrid Pid storW cacheW gW 3 = .ok (G, c₁) ∧
      (LebedevGrid.get_dvolume G)[1 * tblW.length + 1]? = some 48 := by
  refine ⟨_, _, rfl, ?_⟩
  have h := C2_weights_radius_major Pid storW cacheW gW 3 tblW _ _ rfl rfl 1 1
    (by decide) (by decide)
  norm_num [gW, tblW, Pid] at h
  simpa [tblW] using h

/-- C3 witness: the same construction yields `2 * 2 = 4` points and 4
weights. -/
theorem C3_grid_lengths_witness :
    ∃ G c₁, mkLebedevGrid Pid storW cacheW gW 3 = .ok (G, c₁) ∧
      (LebedevGrid.get_rgrid G).length = gW.rgrid.length * tblW.length ∧
      (LebedevGrid.get_dvolume G).length = gW.rgrid.length * tblW.length := by
  refine ⟨_, _, rfl, ?_⟩
  exact C3_grid_lengths Pid storW cacheW gW 3 tblW _ _ rfl rfl (by decide)


/-! ### Cache-coherence machinery for the composite grid -/

/-- `c₁` extends `c` coherently with storage: every entry is either carried
over from `c` or is the converted table of the corresponding resource,
freshly stored on a miss. -/
def CacheExt (P : NumPrims) (s : Storage) (c c₁ : Cache) : Prop :=
  ∀ q, c₁ q = c q ∨
    (c q = none ∧ ∃ raw, s q = some raw ∧ c₁ q = some (raw.map (convertRow P)))

theorem CacheExt.refl (P : NumPrims) (s : Storage) (c : Cache) : CacheExt P s c c :=
  fun _ => Or.inl rfl

theorem CacheExt.trans {P : NumPrims} {s : Storage} {c c₁ c₂ : Cache}
    (h₁ : CacheExt P s c c₁) (h₂ : CacheExt P s c₁ c₂) : CacheExt P s c c₂ := by
  intro q
  rcases h₂ q with h | ⟨hn, raw, hraw, hc₂⟩
  · rcases h₁ q with h' | ⟨hn, raw, hraw, hc₁⟩
    · exact Or.inl (h.trans h')
    · exact Or.inr ⟨hn, raw, hraw, h.trans hc₁⟩
  · rcases h₁ q with h' | ⟨hn', raw', hraw', hc₁⟩
    · exact Or.inr ⟨h'.symm.trans hn, raw, hraw, hc₂⟩
    · rw [hc₁] at hn; cases hn

/-- One `load` call only extends the cache coherently. -/
theorem load_cacheExt (P : NumPrims) (s : Storage) (c : Cache) (prec : Nat) :
    CacheExt P s c (LebedevLoader.load P s c prec).cache := by
  intro q
  unfold LebedevLoader.load
  cases hc : c prec with
  | some tbl => exact Or.inl rfl
  | none =>
    cases hs : s prec with
    | none => exact Or.inl rfl
    | some raw =>
      by_cases hq : q = prec
      · subst hq
        exact Or.inr ⟨hc, raw, hs, by simp⟩
      · exact Or.inl (by simp [hq])

/-- The loader's returned table is insensitive to coherent cache
extension. -/
theorem load_result_cacheExt {P : NumPrims} {s : Storage} {c c₁ : Cache}
    (h : CacheExt P s c c₁) (prec : Nat) :
    (LebedevLoader.load P s c₁ prec).result = (LebedevLoader.load P s c prec).result := by
  unfold LebedevLoader.load
  rcases h prec with heq | ⟨hn, raw, hraw, hc₁⟩
  · rw [heq]
    cases c prec with
    | some tbl => rfl
    | none => cases s prec <;> rfl
  · rw [hn, hc₁, hraw]

/-- The constructed grid value is insensitive to coherent cache
extension. -/
theorem mkLebedevGrid_cacheExt {P : NumPrims} {s : Storage} {c c₁ : Cache}
    (h : CacheExt P s c c₁) (g : RadialGrid) (prec : Nat) :
    (mkLebedevGrid P s c₁ g prec).map Prod.fst = (mkLebedevGrid P s c g prec).map Prod.fst := by
  unfold mkLebedevGrid
  rw [load_result_cacheExt h prec]
  cases (LebedevLoader.load P s c prec).result with
  | error e => simp
  | ok tbl =>
    by_cases hcoord : g.coord_type = "radial" <;>
      by_cases hprec : prec % 2 = 1 ∧ 3 ≤ prec ∧ prec ≤ 131 <;>
        simp [hcoord, hprec, Except.map]

/-- A successful construction extends the cache coherently. -/
theorem mkLebedevGrid_ok_cacheExt {P : NumPrims} {s : Storage} {c : Cache}
    {g : RadialGrid} {prec : Nat} {G : LebedevGrid} {c₁ : Cache}
    (hok : mkLebedevGrid P s c g prec = .ok (G, c₁)) : CacheExt P s c c₁ := by
  obtain ⟨tbl, -, -, hc₁, -, -⟩ := mkLebedevGrid_ok_elim P s c g prec G c₁ hok
  rw [hc₁]
  exact load_cacheExt P s c prec

/-- `standaloneGrids` is insensitive to coherent cache extension. -/
theorem standaloneGrids_cacheExt {P : NumPrims} {s : Storage} {c c₁ : Cache}
    (h : CacheExt P s c c₁) (l : List (RadialGrid × Nat)) :
    standaloneGrids P s c₁ l = standaloneGrids P s c l := by
  induction l with
  | nil => rfl
  | cons gp rest ih =>
    unfold standaloneGrids
    rw [mkLebedevGrid_cacheExt h gp.1 gp.2, ih]

/-- The cache-threaded list comprehension of the composite constructor
produces exactly the constituents each built from the starting cache, and
only extends the cache coherently. -/
theorem buildList_standalone {P : NumPrims} {s : Storage} {c : Cache}
    {l : List (RadialGrid × Nat)} {Gs : List LebedevGrid} {c₁ : Cache}
    (hok : buildList P s c l = .ok (Gs, c₁)) :
    standaloneGrids P s c l = .ok Gs ∧ CacheExt P s c c₁ := by
  induction l generalizing c Gs with
  | nil =>
    unfold buildList at hok
    simp only [Except.ok.injEq, Prod.mk.injEq] at hok
    rw [← hok.1, ← hok.2]
    exact ⟨rfl, CacheExt.refl P s c⟩
  | cons gp rest ih =>
    unfold buildList at hok
    cases h₀ : mkLebedevGrid P s c gp.1 gp.2 with
    | error e => rw [h₀] at hok; simp at hok
    | ok Gc =>
      obtain ⟨G₀, cmid⟩ := Gc
      rw [h₀] at hok
      dsimp only at hok
      cases h₁ : buildList P s cmid rest with
      | error e => rw [h₁] at hok; simp at hok
      | ok Gsc =>
        obtain ⟨Gs₁, c₂⟩ := Gsc
        rw [h₁] at hok
        dsimp only at hok
        simp only [Except.ok.injEq, Prod.mk.injEq] at hok
        obtain ⟨hGs, hc⟩ := hok
        subst hGs
        subst hc
        have hext₀ : CacheExt P s c cmid := mkLebedevGrid_ok_cacheExt h₀
        obtain ⟨hrest, hext₁⟩ := ih h₁
        refine ⟨?_, hext₀.trans hext₁⟩
        unfold standaloneGrids
        rw [h₀, ← standaloneGrids_cacheExt hext₀ rest, hrest]
        simp [Except.map]


/-! ### Composite-grid claims -/

/-- C4: a successfully constructed composite grid's points sequence is the
concatenation, in list order, of the points sequences of the constituent
single grids built from each `(radial_grid[i], precision[i])` pair, its
length is the sum of the constituents' lengths, and the same holds for the
weights sequence. -/
theorem C4_composite_concatenation (P : NumPrims) (s : Storage) (c : Cache)
    (radgrids : List RadialGrid) (precs : List Nat) (G : LebedevGrid) (c₁ : Cache)
    (hok : mkTruncatedLebedevGrid P s c radgrids precs = .ok (G, c₁)) :
    ∃ Gs, standaloneGrids P s c (radgrids.zip precs) = .ok Gs ∧
      LebedevGrid.get_rgrid G = (Gs.map LebedevGrid.xyz).flatten ∧
      LebedevGrid.get_dvolume G = (Gs.map LebedevGrid.dvolume).flatten ∧
      (LebedevGrid.get_rgrid G).length = (Gs.map fun H => H.xyz.length).sum ∧
      (LebedevGrid.get_dvolume G).length = (Gs.map fun H => H.dvolume.length).sum := by
  unfold mkTruncatedLebedevGrid at hok
  split at hok
  case isFalse _ => simp at hok
  case isTrue _ =>
    split at hok
    case isFalse _ => simp at hok
    case isTrue _ =>
      cases hb : buildList P s c (radgrids.zip precs) with
      | error e => rw [hb] at hok; simp at hok
      | ok Gsc =>
        obtain ⟨Gs, c₂⟩ := Gsc
        rw [hb] at hok
        dsimp only at hok
        cases Gs with
        | nil => simp at hok
        | cons G₀ Gt =>
          simp only [Except.ok.injEq, Prod.mk.injEq] at hok
          obtain ⟨hG, hc⟩ := hok
          obtain ⟨hstand, -⟩ := buildList_standalone hb
          refine ⟨G₀ :: Gt, hstand, ?_, ?_, ?_, ?_⟩ <;>
            rw [← hG] <;>
              simp [LebedevGrid.get_rgrid, LebedevGrid.get_dvolume, List.length_flatten,
                List.map_map, Function.comp_def]

/-- C4 witness: a concrete two-constituent composite (both at cached
precision 3) whose points and weights are the concatenations of the two
standalone grids' points and weights. -/
theorem C4_composite_concatenation_witness :
    ∃ G c₁, mkTruncatedLebedevGrid Pid storW cacheW [gW, gW] [3, 3] = .ok (G, c₁) ∧
      ∃ Gs, standaloneGrids Pid storW cacheW ([gW, gW].zip [3, 3]) = .ok Gs ∧
        LebedevGrid.get_rgrid G = (Gs.map LebedevGrid.xyz).flatten ∧
        LebedevGrid.get_dvolume G = (Gs.map LebedevGrid.dvolume).flatten ∧
        (LebedevGrid.get_rgrid G).length = (Gs.map fun H => H.xyz.length).sum ∧
        (LebedevGrid.get_dvolume G).length = (Gs.map fun H => H.dvolume.length).sum := by
  refine ⟨_, _, rfl, ?_⟩
  exact C4_composite_concatenation Pid storW cacheW [gW, gW] [3, 3] _ _ rfl

/-- C10: the composite built from singleton lists `([g], [p])` is
observationally identical to the single grid built from `(g, p)`: literally
the same construction result (hence the same points, weights, `dtype`,
`device`, and final cache), in errors as well as in successes, and both
grid classes report the constant coordinate type `"cart"`. -/
theorem C10_composite_singleton (P : NumPrims) (s : Storage) (c : Cache)
    (g : RadialGrid) (p : Nat) :
    mkTruncatedLebedevGrid P s c [g] [p] = mkLebedevGrid P s c g p ∧
    ∀ G : LebedevGrid, LebedevGrid.coord_type G = "cart" := by
  refine ⟨?_, fun G => rfl⟩
  unfold mkTruncatedLebedevGrid
  rw [if_pos (show ([g] : List RadialGrid).length = ([p] : List Nat).length from rfl),
    if_pos (by simp : (0 : Nat) < ([p] : List Nat).length)]
  have hz : (([g] : List RadialGrid).zip ([p] : List Nat)) = [(g, p)] := rfl
  rw [hz]
  unfold buildList
  cases h : mkLebedevGrid P s c g p with
  | error e => rfl
  | ok Gc =>
    obtain ⟨G, c₁⟩ := Gc
    simp [buildList]


/-! ### Argument-validation claims -/

/-- C6: an even precision or a precision outside `[3, 131]` makes the
single-grid construction fail with `InvalidArgument`; so does a radial grid
whose `coord_type` is not `"radial"` (once its table is loadable, the point
at which that assert runs); composite construction with mismatched-length
or empty lists fails with `InvalidArgument`.  In every case the result is
an error, so no grid value is returned. -/
theorem C6_invalid_arguments :
    (∀ (P : NumPrims) (s : Storage) (c : Cache) (g : RadialGrid) (prec : Nat),
      ¬(prec % 2 = 1 ∧ 3 ≤ prec ∧ prec ≤ 131) →
        mkLebedevGrid P s c g prec = .error .invalidArgument) ∧
    (∀ (P : NumPrims) (s : Storage) (c : Cache) (g : RadialGrid) (prec : Nat) (tbl : List Row),
      (LebedevLoader.load P s c prec).result = .ok tbl → g.coord_type ≠ "radial" →
        mkLebedevGrid P s c g prec = .error .invalidArgument) ∧
    (∀ (P : NumPrims) (s : Storage) (c : Cache)
      (radgrids : List RadialGrid) (precs : List Nat),
      radgrids.length ≠ precs.length ∨ precs.length = 0 →
        mkTruncatedLebedevGrid P s c radgrids precs = .error .invalidArgument) := by
  refine ⟨?_, ?_, ?_⟩
  · intro P s c g prec h
    unfold mkLebedevGrid
    rw [if_neg h]
  · intro P s c g prec tbl htbl hcoord
    by_cases hp : prec % 2 = 1 ∧ 3 ≤ prec ∧ prec ≤ 131
    · unfold mkLebedevGrid
      rw [if_pos hp, htbl]
      dsimp only
      rw [if_neg hcoord]
    · unfold mkLebedevGrid
      rw [if_neg hp]
  · intro P s c radgrids precs h
    unfold mkTruncatedLebedevGrid
    rcases h with h | h
    · rw [if_neg h]
    · by_cases hlen : radgrids.length = precs.length
      · rw [if_pos hlen, if_neg (by omega)]
      · rw [if_neg hlen]

/-- C6 witness: precision 4 (even), precision 133 (out of range), a
non-radial grid at cached precision 3, mismatched list lengths, and empty
lists, all rejected with `InvalidArgument`. -/
theorem C6_invalid_arguments_witness :
    mkLebedevGrid Pid storW cacheW gW 4 = .error .invalidArgument ∧
    mkLebedevGrid Pid storW cacheW gW 133 = .error .invalidArgument ∧
    mkLebedevGrid Pid storW cacheW gCart 3 = .error .invalidArgument ∧
    mkTruncatedLebedevGrid Pid storW cacheW [gW] [3, 3] = .error .invalidArgument ∧
    mkTruncatedLebedevGrid Pid storW cacheW [] [] = .error .invalidArgument :=
  ⟨C6_invalid_arguments.1 Pid storW cacheW gW 4 (by decide),
   C6_invalid_arguments.1 Pid storW cacheW gW 133 (by decide),
   C6_invalid_arguments.2.1 Pid storW cacheW gCart 3 tblW rfl (by decide),
   C6_invalid_arguments.2.2 Pid storW cacheW [gW] [3, 3] (Or.inl (by decide)),
   C6_invalid_arguments.2.2 Pid storW cacheW [] [] (Or.inr rfl)⟩

/-! ### The worked example (C5) -/

/-- A construction whose precision is already cached is a pure cache hit:
it returns the outer-product grid of the cached table and leaves the cache
unchanged. -/
theorem mkLebedevGrid_cache_hit (P : NumPrims) (s : Storage) (c : Cache) (g : RadialGrid)
    (prec : Nat) (tbl : List Row) (hhit : c prec = some tbl)
    (hprec : prec % 2 = 1 ∧ 3 ≤ prec ∧ prec ≤ 131) (hcoord : g.coord_type = "radial") :
    mkLebedevGrid P s c g prec = .ok (mkGridFromTable P g tbl, c) := by
  have hres : (LebedevLoader.load P s c prec).result = .ok tbl := by
    unfold LebedevLoader.load
    rw [hhit]
  have hcache : (LebedevLoader.load P s c prec).cache = c := by
    unfold LebedevLoader.load
    rw [hhit]
  unfold mkLebedevGrid
  rw [if_pos hprec, hres]
  dsimp only
  rw [if_pos hcoord, hcache]


set_option maxRecDepth 10000 in
/-- C5 counterexample: with a 100-radius radial grid, a 6-direction table
at precision 3 and a 14-direction table at precision 5, the single grid at
precision 3 does have 600 points, but the composite of the two 100-radius
grids at precisions 3 and 5 has 2000 points — not 1400 as the claim
states. -/
theorem C5_counterexample :
    (mkLebedevGrid Pid storW cache5 rad100 3).map
        (fun Gc => (LebedevGrid.get_rgrid Gc.1).length) = .ok 600 ∧
    (mkTruncatedLebedevGrid Pid storW cache5 [rad100, rad100] [3, 5]).map
        (fun Gc => (LebedevGrid.get_rgrid Gc.1).length) = .ok 2000 ∧
    ¬ (mkTruncatedLebedevGrid Pid storW cache5 [rad100, rad100] [3, 5]).map
        (fun Gc => (LebedevGrid.get_rgrid Gc.1).length) = .ok 1400 := by
  have h1 : (mkLebedevGrid Pid storW cache5 rad100 3).map
      (fun Gc => (LebedevGrid.get_rgrid Gc.1).length) = .ok 600 := by rfl
  have h2 : (mkTruncatedLebedevGrid Pid storW cache5 [rad100, rad100] [3, 5]).map
      (fun Gc => (LebedevGrid.get_rgrid Gc.1).length) = .ok 2000 := by rfl
  refine ⟨h1, h2, fun hcontra => ?_⟩
  rw [h2] at hcontra
  simp at hcontra

/-- C5 amended: for every radial grid with 100 radii, a cached 6-direction
table at precision 3 and a cached 14-direction table at precision 5, the
single grid at precision 3 has 600 points and the composite of two such
100-radius grids at precisions 3 and 5 has total length
`2000 = 100·6 + 100·14`. -/
theorem C5_amended_lengths (P : NumPrims) (s : Storage) (c : Cache) (g : RadialGrid)
    (t3 t5 : List Row) (h3 : c 3 = some t3) (h5 : c 5 = some t5)
    (hl3 : t3.length = 6) (hl5 : t5.length = 14) (hr : g.rgrid.length = 100)
    (hcoord : g.coord_type = "radial") :
    (mkLebedevGrid P s c g 3).map
        (fun Gc => (LebedevGrid.get_rgrid Gc.1).length) = .ok 600 ∧
    (mkTruncatedLebedevGrid P s c [g, g] [3, 5]).map
        (fun Gc => (LebedevGrid.get_rgrid Gc.1).length) = .ok 2000 := by
  have hx3 : mkLebedevGrid P s c g 3 = .ok (mkGridFromTable P g t3, c) :=
    mkLebedevGrid_cache_hit P s c g 3 t3 h3 (by decide) hcoord
  have hx5 : mkLebedevGrid P s c g 5 = .ok (mkGridFromTable P g t5, c) :=
    mkLebedevGrid_cache_hit P s c g 5 t5 h5 (by decide) hcoord
  have hlen3 : (mkGridFromTable P g t3).xyz.length = 600 := by
    have h := flatMap_length_const g.rgrid
      (fun r => t3.map fun row =>
        (r * P.sin row.2.1 * P.cos row.1, r * P.sin row.2.1 * P.sin row.1, r * P.cos row.2.1))
      t3.length (fun a => by simp)
    simp only [mkGridFromTable] at h ⊢
    rw [h, hr, hl3]
  have hlen5 : (mkGridFromTable P g t5).xyz.length = 1400 := by
    have h := flatMap_length_const g.rgrid
      (fun r => t5.map fun row =>
        (r * P.sin row.2.1 * P.cos row.1, r * P.sin row.2.1 * P.sin row.1, r * P.cos row.2.1))
      t5.length (fun a => by simp)
    simp only [mkGridFromTable] at h ⊢
    rw [h, hr, hl5]
  constructor
  · rw [hx3]
    simp [Except.map, LebedevGrid.get_rgrid, hlen3]
  · unfold mkTruncatedLebedevGrid
    rw [if_pos (show ([g, g] : List RadialGrid).length = ([3, 5] : List Nat).length from rfl),
      if_pos (by simp : (0 : Nat) < ([3, 5] : List Nat).length)]
    rw [show (([g, g] : List RadialGrid).zip ([3, 5] : List Nat)) = [(g, 3), (g, 5)] from rfl]
    simp only [buildList, hx3, hx5]
    simp [Except.map, LebedevGrid.get_rgrid, hlen3, hlen5]

/-- C5 amended witness: the concrete instance `rad100` / `tbl6` / `tbl14`
of the amended statement. -/
theorem C5_amended_lengths_witness :
    (mkLebedevGrid Pid storW cache5 rad100 3).map
        (fun Gc => (LebedevGrid.get_rgrid Gc.1).length) = .ok 600 ∧
    (mkTruncatedLebedevGrid Pid storW cache5 [rad100, rad100] [3, 5]).map
        (fun Gc => (LebedevGrid.get_rgrid Gc.1).length) = .ok 2000 :=
  C5_amended_lengths Pid storW cache5 rad100 tbl6 tbl14 rfl rfl (by decide) (by decide)
    (by simp [rad100]) rfl

